import Mathlib

/-
Verification development for the digital-transformation trend-analysis tool
(`trend_analysis_app.py` and the companion query app).  The embedding models
the two logic components of the program: the stock-code normalizer
`format_stock_code` and the dataset cleaning / filtering / aggregation
pipeline built on pandas operations.  Python strings are modelled as Lean
`String`s through their character lists (ASCII digits and whitespace, which
is what the data contains); pandas scalar cells are modelled with an
explicit `Cell` type whose `null` constructor stands for NaN/None; numeric
indicator columns are modelled over `ℚ`.
-/

namespace TrendAnalysis

/-- Model of Python `str.strip()`: remove leading and trailing whitespace
characters from a character list. -/
def pyStrip (l : List Char) : List Char :=
  ((l.dropWhile Char.isWhitespace).reverse.dropWhile Char.isWhitespace).reverse

/-- Model of the source's decimal-point truncation step
`if '.' in code_str: code_str = code_str.split('.')[0]` —
when the string contains a dot, keep the prefix before the first dot
(Python `split('.')[0]`), otherwise leave the string unchanged. -/
def truncAtDot (l : List Char) : List Char :=
  if l.contains '.' then l.takeWhile (fun c => c ≠ '.') else l

/-- Model of Python `str.zfill(width)`: left-pad with the character `0` up to
`width`; a string already at least `width` long is returned unchanged; a
leading sign character stays in front of the inserted zeros.
Note `"".zfill(6) = "000000"` in Python, matched by the `[]` branch. -/
def zfillList (l : List Char) (width : Nat) : List Char :=
  if width ≤ l.length then l
  else
    match l with
    | [] => List.replicate width '0'
    | c :: rest =>
      if c = '+' ∨ c = '-' then
        c :: (List.replicate (width - l.length) '0' ++ rest)
      else
        List.replicate (width - l.length) '0' ++ (c :: rest)

/-- Embedding of `format_stock_code` (trend_analysis_app.py, lines 24-43).
The input is the textual form of the scalar (`str(code)` in the source);
`none` models a null/NaN scalar, for which the source returns `""`.
The steps mirror the source line by line: strip whitespace, truncate at the
first decimal point when a dot is present, keep only digit characters,
then `zfill(6)`. -/
def format_stock_code (code : Option String) : String :=
  match code with
  | none => ""
  | some s =>
    let code_str := pyStrip s.data
    let code_str := truncAtDot code_str
    let code_str := code_str.filter Char.isDigit
    String.mk (zfillList code_str 6)

/-- Normalization as worded by the specification, for the refinement
comparison: convert to text, strip surrounding whitespace, truncate at the
first decimal point, remove all non-digit characters, and left-pad the
remaining digits with the character `0` to exactly 6 characters, a digit
string of 6 or more characters being used as-is. -/
def normalizeSpec (s : String) : String :=
  let t := pyStrip s.data
  let t := t.takeWhile (fun c => c ≠ '.')
  let d := t.filter Char.isDigit
  if 6 ≤ d.length then String.mk d
  else String.mk (List.replicate (6 - d.length) '0' ++ d)

/-- Number of digit characters that survive the stripping steps of
`format_stock_code` (whitespace strip, decimal-point truncation, digit
filter) on a non-null input. -/
def survivingDigits (s : String) : Nat :=
  ((truncAtDot (pyStrip s.data)).filter Char.isDigit).length

/-- A digit character is not one of the characters `format_stock_code` is
meant to remove: not whitespace, not a dot, and not a sign. -/
theorem digit_char_clean (c : Char) (h : c.isDigit = true) :
    c.isWhitespace = false ∧ c ≠ '.' ∧ c ≠ '+' ∧ c ≠ '-' := by
  refine ⟨?_, ?_, ?_, ?_⟩
  · by_contra hne
    have hw : c.isWhitespace = true := by
      revert hne; cases c.isWhitespace <;> simp
    unfold Char.isWhitespace at hw
    simp only [Bool.or_eq_true, decide_eq_true_eq] at hw
    rcases hw with ((h1 | h1) | h1) | h1 <;> (subst h1; exact absurd h (by decide))
  · intro h1; subst h1; exact absurd h (by decide)
  · intro h1; subst h1; exact absurd h (by decide)
  · intro h1; subst h1; exact absurd h (by decide)

/-- On a list of digit characters, `zfillList` reduces to plain left-padding:
no sign character can stand at the head. -/
theorem zfillList_of_digits (l : List Char) (hl : ∀ c ∈ l, c.isDigit = true)
    (w : Nat) :
    zfillList l w =
      if w ≤ l.length then l else List.replicate (w - l.length) '0' ++ l := by
  unfold zfillList
  by_cases h : w ≤ l.length
  · simp [h]
  · simp only [h, if_false]
    match l with
    | [] => simp
    | c :: rest =>
      have hc : c.isDigit = true := hl c (List.mem_cons_self c rest)
      have hplus : c ≠ '+' := (digit_char_clean c hc).2.2.1
      have hminus : c ≠ '-' := (digit_char_clean c hc).2.2.2
      simp [hplus, hminus]

/-- Every character of a `zfillList` of digits is a digit. -/
theorem zfillList_digits (l : List Char) (hl : ∀ c ∈ l, c.isDigit = true)
    (w : Nat) : ∀ c ∈ zfillList l w, c.isDigit = true := by
  rw [zfillList_of_digits l hl w]
  by_cases h : w ≤ l.length
  · simpa [h] using hl
  · simp only [h, if_false]
    intro c hc
    rcases List.mem_append.mp hc with hc | hc
    · have : c = '0' := List.eq_of_mem_replicate hc
      subst this; decide
    · exact hl c hc

/-- The length of a `zfillList` of digits is the maximum of the width and the
input length. -/
theorem zfillList_length (l : List Char) (hl : ∀ c ∈ l, c.isDigit = true)
    (w : Nat) : (zfillList l w).length = max w l.length := by
  rw [zfillList_of_digits l hl w]
  by_cases h : w ≤ l.length
  · simp [h, Nat.max_eq_right h]
  · have h2 : l.length ≤ w := Nat.le_of_not_le h
    simp [h, List.length_append, List.length_replicate, Nat.max_eq_left h2]
    omega

/-- A raw spreadsheet cell as pandas sees it: null/NaN, a numeric value, or
text.  Fractional numeric year cells do not occur in the year column of the
data, so numeric cells carry an integer. -/
inductive Cell where
  | null : Cell
  | num : Int → Cell
  | text : String → Cell
deriving DecidableEq, Repr

/-- Digit characters read as a natural number, most significant first. -/
def digitsToNat (l : List Char) : Nat :=
  l.foldl (fun acc c => acc * 10 + (c.toNat - '0'.toNat)) 0

/-- Model of `pd.to_numeric(x, errors='coerce')` followed by `astype(int)` on
a text cell: an optionally signed decimal literal (digits, with an optional
fractional part, at least one digit overall) parses, the fractional part
being discarded as `astype(int)` truncates toward zero; any other text
coerces to NaN, i.e. `none`. -/
def toNumericText (s : String) : Option Int :=
  let l := pyStrip s.data
  let sign : Int := match l with
    | '-' :: _ => -1
    | _ => 1
  let l := match l with
    | '+' :: rest => rest
    | '-' :: rest => rest
    | _ => l
  let intPart := l.takeWhile Char.isDigit
  let rest := l.dropWhile Char.isDigit
  match rest with
  | [] =>
    if intPart.isEmpty then none else some (sign * (digitsToNat intPart : Int))
  | '.' :: frac =>
    if frac.all Char.isDigit ∧ ¬(intPart.isEmpty ∧ frac.isEmpty) then
      some (sign * (digitsToNat intPart : Int))
    else none
  | _ => none

/-- Model of `pd.to_numeric(..., errors='coerce')` with `astype(int)` on a
whole cell (trend_analysis_app.py, line 64): null coerces to NaN, a numeric
cell passes through, text parses via `toNumericText`. -/
def toNumericInt : Cell → Option Int
  | Cell.null => none
  | Cell.num n => some n
  | Cell.text s => toNumericText s

/-- A raw input row, before cleaning: the stock-code cell (textual form of
the scalar, `none` for null), the company-name cell, the year cell, and a
numeric indicator value (the transformation-index column, which `load_data`
passes through untouched). -/
structure RawRow where
  code : Option String
  name : Option String
  year : Cell
  index : ℚ
deriving DecidableEq, Repr

/-- A cleaned record: canonical identifier, company name (sentinel-filled),
integer year, numeric indicator value. -/
structure Record where
  identifier : String
  companyName : String
  year : Int
  index : ℚ
deriving DecidableEq, Repr

/-- Cleaning of one row, mirroring the column transformations of `load_data`
(trend_analysis_app.py, lines 58-69): `format_stock_code` on the code,
`to_numeric(...).fillna(0).astype(int)` on the year, `fillna('未知企业')` on
the company name; indicator columns are untouched.  The source applies each
transformation columnwise; applying them rowwise is the same map. -/
def cleanRow (r : RawRow) : Record :=
  { identifier := format_stock_code r.code
  , companyName := r.name.getD "未知企业"
  , year := (toNumericInt r.year).getD 0
  , index := r.index }

/-- Embedding of the cleaning part of `load_data` (trend_analysis_app.py,
lines 47-75): every row is transformed in place; no row is dropped. -/
def clean (raws : List RawRow) : List Record :=
  raws.map cleanRow

/-- Embedding of the lookup step (trend_analysis_app.py, lines 201-203):
`formatted_stock_code = format_stock_code(stock_code)` followed by
`main_df = df[df['股票代码'] == formatted_stock_code]`. -/
def lookup (ds : List Record) (code : Option String) : List Record :=
  ds.filter (fun r => r.identifier == format_stock_code code)

/-- Embedding of the year-range filter (trend_analysis_app.py, line 209):
`main_df[(main_df['年份'] >= year_range[0]) & (main_df['年份'] <= year_range[1])]`. -/
def filterByYearRange (rs : List Record) (minYear maxYear : Int) : List Record :=
  rs.filter (fun r => decide (minYear ≤ r.year) && decide (r.year ≤ maxYear))

/-- Embedding of `main_df.sort_values('年份')` (trend_analysis_app.py, line
220).  pandas' default sort kind is quicksort, whose ordering among equal
years is not specified by the pandas API; the model uses a stable merge
sort, so statements about the relative order of equal-year records reflect
the model, not a guarantee of the source. -/
def sortByYear (rs : List Record) : List Record :=
  rs.mergeSort (fun a b => decide (a.year ≤ b.year))

/-- Embedding of the summary statistics over a numeric field
(trend_analysis_app.py, lines 297-300): `.mean()`, `.max()`, `.min()` of the
selected column.  The source only computes these on a non-empty `main_df`;
on the empty list the model returns zeros, a value no claim depends on. -/
def aggregate (rs : List Record) (f : Record → ℚ) : ℚ × ℚ × ℚ :=
  let vs := rs.map f
  (vs.sum / (vs.length : ℚ), vs.foldl max (vs.headD 0), vs.foldl min (vs.headD 0))

/-- Embedding of the growth-rate computation (trend_analysis_app.py, lines
303-311): when more than one record is present, take the field value of the
first and last rows (`iloc[0]`, `iloc[-1]`) and compute
`((last_val - first_val) / max(first_val, 1)) * 100`; otherwise 0. -/
def growth_rate (rs : List Record) (f : Record → ℚ) : ℚ :=
  if h : 1 < rs.length then
    let first_val := f (rs.get ⟨0, by omega⟩)
    let last_val := f (rs.get ⟨rs.length - 1, by omega⟩)
    ((last_val - first_val) / max first_val 1) * 100
  else 0

/-- The application state: the cleaned dataset held read-only after load. -/
structure AppState where
  df : List Record
deriving DecidableEq, Repr

/-- One query interaction, mirroring the main block of the source
(trend_analysis_app.py, lines 203-311): lookup by formatted code, year-range
filter, sort by year, then summary statistics and growth rate — every step
binds a new frame (`main_df`) and the loaded `df` is never assigned to. -/
def query_session (st : AppState) (code : Option String) (y0 y1 : Int)
    (f : Record → ℚ) : (List Record × (ℚ × ℚ × ℚ) × ℚ) × AppState :=
  let main1 := lookup st.df code
  let main2 := filterByYearRange main1 y0 y1
  let main3 := sortByYear main2
  ((main3, aggregate main3 f, growth_rate main3 f), st)

/-- Unfolding of `format_stock_code` on a non-null input. -/
theorem format_some_eq (s : String) :
    format_stock_code (some s) =
      String.mk (zfillList ((truncAtDot (pyStrip s.data)).filter Char.isDigit) 6) :=
  rfl

/-- Every character of the normalized form of a non-null input is a digit. -/
theorem format_some_all_digits (s : String) :
    ∀ c ∈ (format_stock_code (some s)).data, c.isDigit = true := by
  rw [format_some_eq]
  exact zfillList_digits _ (fun c hc => (List.mem_filter.mp hc).2) 6

/-- The length of the normalized form of a non-null input is the maximum of 6
and the number of surviving digits. -/
theorem format_some_length (s : String) :
    (format_stock_code (some s)).length = max 6 (survivingDigits s) := by
  rw [format_some_eq]
  show (zfillList ((truncAtDot (pyStrip s.data)).filter Char.isDigit) 6).length = _
  rw [zfillList_length _ (fun c hc => (List.mem_filter.mp hc).2) 6]
  rfl

/-- The normalized form of a non-null input is never the empty string. -/
theorem format_some_ne_empty (s : String) : format_stock_code (some s) ≠ "" := by
  intro h
  have hlen := congrArg String.length h
  rw [format_some_length s] at hlen
  simp at hlen

/-- The element at position `pre.length` of `pre ++ a :: post` is `a`. -/
theorem getElem?_append_cons {α : Type} (pre : List α) (a : α) (post : List α) :
    (pre ++ a :: post)[pre.length]? = some a := by
  induction pre with
  | nil => simp
  | cons x xs ih => simpa using ih

/-- Claim C1, counterexample: on the input `"abc"`, whose textual form holds
no digit, `format_stock_code` returns `"000000"` (Python `"".zfill(6)`), not
the empty string as claimed. -/
theorem c1_claim_counterexample :
    format_stock_code (some "abc") ≠ "" ∧
      format_stock_code (some "abc") = "000000" := by
  constructor
  · decide
  · decide

/-- Claim C1, amended: `format_stock_code` returns the empty string for
null/missing input; for every non-null input whose textual form contains no
digit characters after whitespace stripping and decimal-point truncation, it
returns `"000000"` (the zero-fill of the empty digit string), not the empty
string. -/
theorem c1_amended_no_digit_result :
    format_stock_code none = "" ∧
      ∀ s : String, survivingDigits s = 0 → format_stock_code (some s) = "000000" := by
  constructor
  · rfl
  · intro s h
    rw [format_some_eq]
    have hnil : (truncAtDot (pyStrip s.data)).filter Char.isDigit = [] :=
      List.eq_nil_of_length_eq_zero h
    rw [hnil]
    decide

/-- Claim C1, witness for the amended theorem at the concrete input `"abc"`. -/
theorem c1_amended_witness : format_stock_code (some "abc") = "000000" :=
  c1_amended_no_digit_result.2 "abc" (by decide)

/-- A concrete raw row whose year cell does not parse as a number. -/
def rawBadYear : RawRow :=
  { code := some "600000", name := some "甲", year := Cell.text "abc", index := 0 }

/-- Claim C2, counterexample: a row whose year field does not parse is not
dropped by `clean`; it survives with its year coerced to 0 by
`to_numeric(..., errors='coerce').fillna(0).astype(int)`. -/
theorem c2_claim_counterexample :
    clean [rawBadYear] ≠ [] ∧ (clean [rawBadYear]).map Record.year = [0] := by
  constructor
  · decide
  · decide

/-- Claim C2, amended: during clean, a row whose year field does not parse as
a number is kept, not dropped — the cleaned dataset has exactly one record
per raw row, and the surviving record's year is coerced to 0. -/
theorem c2_amended_year_coerced (pre post : List RawRow) (raw : RawRow)
    (h : toNumericInt raw.year = none) :
    (clean (pre ++ raw :: post)).length = (pre ++ raw :: post).length ∧
      (clean (pre ++ raw :: post))[pre.length]? = some (cleanRow raw) ∧
      (cleanRow raw).year = 0 := by
  refine ⟨by simp [clean], ?_, by simp [cleanRow, h]⟩
  unfold clean
  rw [List.map_append, List.map_cons]
  have := getElem?_append_cons (pre.map cleanRow) (cleanRow raw) (post.map cleanRow)
  simpa using this

/-- Claim C2, witness for the amended theorem at the concrete bad-year row. -/
theorem c2_amended_witness :
    (clean [rawBadYear]).length = 1 ∧
      (clean [rawBadYear])[0]? = some (cleanRow rawBadYear) ∧
      (cleanRow rawBadYear).year = 0 := by
  have h := c2_amended_year_coerced [] [] rawBadYear (by decide)
  simpa using h

/-- A concrete raw row with a null stock-code cell. -/
def rawNullCode : RawRow :=
  { code := none, name := none, year := Cell.num 2020, index := 1 }

/-- Claim C3, counterexample: `clean` never drops rows; a row whose stock
code is null survives cleaning with the empty string as its identifier, so
not every surviving record has an identifier of at least 6 digit characters,
and rows whose normalized identifier is empty are not dropped. -/
theorem c3_claim_counterexample :
    (clean [rawNullCode]).length = 1 ∧
      (clean [rawNullCode]).map Record.identifier = [""] := by
  constructor
  · decide
  · decide

/-- Claim C3, amended: `clean` keeps every row (no drop).  Every surviving
record comes from a raw row by the per-row transformation; its identifier is
the empty string when the raw code cell is null, and otherwise a digit-only
string of length at least 6; a missing company name is filled with the
sentinel `"未知企业"`; the year is always an integer (unparseable years
having been coerced, not dropped). -/
theorem c3_amended_clean_invariant (raws : List RawRow) :
    (clean raws).length = raws.length ∧
      ∀ r ∈ clean raws, ∃ raw ∈ raws, r = cleanRow raw ∧
        (raw.code = none → r.identifier = "") ∧
        (∀ s, raw.code = some s →
          6 ≤ r.identifier.length ∧ ∀ c ∈ r.identifier.data, c.isDigit = true) ∧
        (raw.name = none → r.companyName = "未知企业") := by
  refine ⟨by simp [clean], ?_⟩
  intro r hr
  rcases List.mem_map.mp hr with ⟨raw, hmem, heq⟩
  refine ⟨raw, hmem, heq.symm, ?_, ?_, ?_⟩
  · intro hc
    rw [← heq]
    simp [cleanRow, format_stock_code, hc]
  · intro s hs
    rw [← heq]
    have hid : (cleanRow raw).identifier = format_stock_code (some s) := by
      simp [cleanRow, hs]
    rw [hid]
    constructor
    · rw [format_some_length s]
      omega
    · exact format_some_all_digits s
  · intro hn
    rw [← heq]
    simp [cleanRow, hn]

/-- Claim C3, witness for the amended theorem at the concrete null-code row. -/
theorem c3_amended_witness :
    (clean [rawNullCode]).length = 1 ∧
      (cleanRow rawNullCode).identifier = "" ∧
      (cleanRow rawNullCode).companyName = "未知企业" := by
  refine ⟨(c3_amended_clean_invariant [rawNullCode]).1, ?_, ?_⟩
  all_goals
    obtain ⟨raw, hmem, heq, h1, _h2, h3⟩ :=
      (c3_amended_clean_invariant [rawNullCode]).2 (cleanRow rawNullCode)
        (by simp [clean])
    have hraw : raw = rawNullCode := by simpa using hmem
    subst hraw
  · rw [heq]; exact h1 rfl
  · rw [heq]; exact h3 rfl

/-- A list of digit characters loses nothing to a leading-whitespace drop. -/
theorem dropWhile_ws_of_digits (l : List Char) (h : ∀ c ∈ l, c.isDigit = true) :
    l.dropWhile Char.isWhitespace = l := by
  cases l with
  | nil => rfl
  | cons c rest =>
    have hws : c.isWhitespace = false :=
      (digit_char_clean c (h c (List.mem_cons_self c rest))).1
    simp [List.dropWhile_cons, hws]

/-- A list of digit characters passes through `pyStrip` unchanged. -/
theorem pyStrip_of_digits (l : List Char) (h : ∀ c ∈ l, c.isDigit = true) :
    pyStrip l = l := by
  unfold pyStrip
  rw [dropWhile_ws_of_digits l h,
    dropWhile_ws_of_digits l.reverse (fun c hc => h c (List.mem_reverse.mp hc)),
    List.reverse_reverse]

/-- A list of digit characters contains no dot. -/
theorem not_contains_dot_of_digits (l : List Char) (h : ∀ c ∈ l, c.isDigit = true) :
    l.contains '.' = false := by
  by_contra hne
  have hc : l.contains '.' = true := by
    revert hne; cases l.contains '.' <;> simp
  have hmem : '.' ∈ l := by simpa using hc
  exact absurd (h '.' hmem) (by decide)

/-- Claim C4: `lookup` returns exactly the records of the cleaned dataset
whose (already normalized) identifier equals the normalization of the query
code — the result is an order-preserving subsequence, every returned record
matches, every matching record is returned, two query codes with the same
normalization give the same result, and when no record matches the result
is the empty sequence (a total function: no exception). -/
theorem c4_lookup_spec (ds : List Record) (code : Option String) :
    (lookup ds code).Sublist ds ∧
      (∀ r ∈ lookup ds code, r.identifier = format_stock_code code) ∧
      (∀ r ∈ ds, r.identifier = format_stock_code code → r ∈ lookup ds code) ∧
      (∀ code2, format_stock_code code = format_stock_code code2 →
        lookup ds code = lookup ds code2) ∧
      ((∀ r ∈ ds, r.identifier ≠ format_stock_code code) → lookup ds code = []) := by
  refine ⟨List.filter_sublist ds, ?_, ?_, ?_, ?_⟩
  · intro r hr
    have h := (List.mem_filter.mp hr).2
    simpa using h
  · intro r hr heq
    exact List.mem_filter.mpr ⟨hr, by simpa using heq⟩
  · intro code2 h
    unfold lookup
    rw [h]
  · intro h
    apply List.filter_eq_nil_iff.mpr
    intro r hr
    simpa using h r hr

/-- A concrete cleaned record (company-year observation, year 2020). -/
def recP : Record :=
  { identifier := "000001", companyName := "甲", year := 2020, index := 10 }

/-- A concrete cleaned record (same company, year 2021). -/
def recQ : Record :=
  { identifier := "000001", companyName := "甲", year := 2021, index := 20 }

/-- Claim C4, witness: the loosely formatted query code `"1"` matches the
record stored under the canonical identifier `"000001"`. -/
theorem c4_lookup_witness : recP ∈ lookup [recP, recQ] (some "1") :=
  (c4_lookup_spec [recP, recQ] (some "1")).2.2.1 recP (by decide) (by decide)

/-- Claim C5: on every non-null input, `format_stock_code` agrees with the
specification pipeline `normalizeSpec` (strip whitespace, truncate at the
first decimal point, remove non-digits, left-pad with the character `0` to
exactly 6); a digit-only string of length at least 6 passes through
unchanged; and the two spec examples hold. -/
theorem c5_normalize_matches_spec :
    (∀ s : String, format_stock_code (some s) = normalizeSpec s) ∧
      (∀ s : String, (∀ c ∈ s.data, c.isDigit = true) → 6 ≤ s.length →
        format_stock_code (some s) = s) ∧
      format_stock_code (some "600000.0") = "600000" ∧
      format_stock_code (some "1") = "000001" := by
  refine ⟨?_, ?_, by decide, by decide⟩
  · intro s
    have hbridge : (truncAtDot (pyStrip s.data)).filter Char.isDigit
        = ((pyStrip s.data).takeWhile (fun c => c ≠ '.')).filter Char.isDigit := by
      by_cases hc : (pyStrip s.data).contains '.' = true
      · unfold truncAtDot
        rw [if_pos hc]
      · have hfalse : (pyStrip s.data).contains '.' = false := by
          revert hc; cases (pyStrip s.data).contains '.' <;> simp
        have hnmem : '.' ∉ pyStrip s.data := by simpa using hfalse
        have hself : (pyStrip s.data).takeWhile (fun c => c ≠ '.') = pyStrip s.data := by
          apply List.takeWhile_eq_self_iff.mpr
          intro x hx
          simp only [decide_eq_true_eq]
          intro hxeq
          exact hnmem (hxeq ▸ hx)
        unfold truncAtDot
        rw [if_neg hc, hself]
    rw [format_some_eq, hbridge]
    have hdig : ∀ c ∈ ((pyStrip s.data).takeWhile (fun c => c ≠ '.')).filter Char.isDigit,
        c.isDigit = true := fun c hc => (List.mem_filter.mp hc).2
    rw [zfillList_of_digits _ hdig 6]
    unfold normalizeSpec
    rw [apply_ite String.mk]
  · intro s hdig h6
    have hp : pyStrip s.data = s.data := pyStrip_of_digits _ hdig
    have hdot : s.data.contains '.' = false := not_contains_dot_of_digits _ hdig
    have hcond : ¬(s.data.contains '.' = true) := by simpa using hdot
    have ht : truncAtDot s.data = s.data := by
      unfold truncAtDot
      rw [if_neg hcond]
    have hf : s.data.filter Char.isDigit = s.data := List.filter_eq_self.mpr hdig
    rw [format_some_eq, hp, ht, hf]
    have hz : zfillList s.data 6 = s.data := by
      unfold zfillList
      rw [if_pos]
      exact h6
    rw [hz]

/-- Claim C5, witness: a digit string longer than 6 characters passes
through unpadded and untruncated. -/
theorem c5_normalize_witness : format_stock_code (some "1234567") = "1234567" :=
  c5_normalize_matches_spec.2.1 "1234567" (by decide) (by decide)

/-- Claim C6: the year-range filter keeps exactly the records whose year
lies in the inclusive interval, preserves the input order (the result is a
subsequence of the input), and returns the empty sequence — with no error —
whenever the lower bound exceeds the upper bound. -/
theorem c6_filterByYearRange_spec (rs : List Record) (a b : Int) :
    (filterByYearRange rs a b).Sublist rs ∧
      (∀ r ∈ filterByYearRange rs a b, a ≤ r.year ∧ r.year ≤ b) ∧
      (∀ r ∈ rs, a ≤ r.year → r.year ≤ b → r ∈ filterByYearRange rs a b) ∧
      (b < a → filterByYearRange rs a b = []) := by
  refine ⟨List.filter_sublist rs, ?_, ?_, ?_⟩
  · intro r hr
    have h := (List.mem_filter.mp hr).2
    simpa using h
  · intro r hr h1 h2
    exact List.mem_filter.mpr ⟨hr, by simp [filterByYearRange, h1, h2]⟩
  · intro hba
    apply List.filter_eq_nil_iff.mpr
    intro r hr
    simp only [Bool.and_eq_true, decide_eq_true_eq, not_and]
    omega

/-- Claim C6, witness: an in-range record is kept, and the reversed range
`[2022, 2020]` yields the empty sequence. -/
theorem c6_filterByYearRange_witness :
    recP ∈ filterByYearRange [recP, recQ] 2019 2022 ∧
      filterByYearRange [recP, recQ] 2022 2020 = [] :=
  ⟨(c6_filterByYearRange_spec [recP, recQ] 2019 2022).2.2.1 recP (by decide)
      (by decide) (by decide),
    (c6_filterByYearRange_spec [recP, recQ] 2022 2020).2.2.2 (by decide)⟩

/-- Claim C8: over a year-sorted record sequence with at least two records,
the growth rate of a numeric field is `(last - first) / max(first, 1) * 100`
computed from the field values of the first and last records; with fewer
than two records it is 0. -/
theorem c8_growth_rate_spec (rs : List Record) (f : Record → ℚ)
    (hsort : List.Pairwise (fun p q => p.year ≤ q.year) rs) :
    (∀ firstR lastR, 2 ≤ rs.length → rs.head? = some firstR →
      rs.getLast? = some lastR →
      growth_rate rs f = ((f lastR - f firstR) / max (f firstR) 1) * 100) ∧
      (rs.length < 2 → growth_rate rs f = 0) := by
  constructor
  · intro firstR lastR h2 hh hl
    have h1 : 1 < rs.length := h2
    have hne : rs ≠ [] := by
      intro h
      subst h
      simp at h1
    unfold growth_rate
    rw [dif_pos h1]
    have hhead : rs.get ⟨0, by omega⟩ = firstR := by
      cases rs with
      | nil => exact absurd rfl hne
      | cons x t =>
        simp only [List.head?_cons, Option.some.injEq] at hh
        simpa using hh
    have hlast : rs.get ⟨rs.length - 1, by omega⟩ = lastR := by
      rw [← List.getLast_eq_get rs hne]
      rw [List.getLast?_eq_getLast rs hne] at hl
      exact Option.some.inj hl
    rw [hhead, hlast]
  · intro hlt
    unfold growth_rate
    rw [dif_neg (by omega)]

/-- Claim C8, witness: the spec scenario — field values 10 then 20 across
years 2020 and 2021 give a growth rate of `((20 - 10) / max(10, 1)) * 100 =
100`. -/
theorem c8_growth_rate_witness : growth_rate [recP, recQ] Record.index = 100 := by
  have h := (c8_growth_rate_spec [recP, recQ] Record.index (by decide)).1 recP recQ
    (by decide) (by decide) (by decide)
  rw [h]
  norm_num [recP, recQ]

/-- Claim C9: a whole query interaction (lookup, year-range filter, sort by
year, aggregation, growth rate) leaves the loaded dataset unchanged —
the output state is the input state — and the record sequence it returns is
a derived view whose records all come from the dataset. -/
theorem c9_queries_preserve_dataset (st : AppState) (code : Option String)
    (y0 y1 : Int) (f : Record → ℚ) :
    (query_session st code y0 y1 f).2 = st ∧
      ∀ r ∈ (query_session st code y0 y1 f).1.1, r ∈ st.df := by
  constructor
  · rfl
  · intro r hr
    have hr3 : r ∈ sortByYear (filterByYearRange (lookup st.df code) y0 y1) := hr
    have hperm := List.mergeSort_perm (filterByYearRange (lookup st.df code) y0 y1)
      (fun a b => decide (a.year ≤ b.year))
    have hr2 : r ∈ filterByYearRange (lookup st.df code) y0 y1 :=
      hperm.mem_iff.mp hr3
    exact List.mem_of_mem_filter (List.mem_of_mem_filter hr2)

/-- Claim C9, witness: a concrete query session over a two-record dataset
returns the same state and a record drawn from the dataset. -/
theorem c9_queries_witness :
    (query_session ⟨[recP, recQ]⟩ (some "1") 2019 2022 Record.index).2 =
        (⟨[recP, recQ]⟩ : AppState) ∧
      recP ∈ (⟨[recP, recQ]⟩ : AppState).df :=
  ⟨(c9_queries_preserve_dataset ⟨[recP, recQ]⟩ (some "1") 2019 2022 Record.index).1,
    (c9_queries_preserve_dataset ⟨[recP, recQ]⟩ (some "1") 2019 2022 Record.index).2
      recP (by
        simp [query_session, lookup, filterByYearRange, sortByYear, recP, recQ,
          format_stock_code, pyStrip, truncAtDot, zfillList, List.mergeSort])⟩

/-- Claim C10: on every non-null input, `format_stock_code` returns a string
of digit characters only — hence free of decimal points, signs, and
whitespace — whose length is exactly the maximum of 6 and the number of
digits surviving the stripping steps; it is never the empty string, the
empty string arising only from null/missing input. -/
theorem c10_format_stock_code_shape (s : String) :
    (∀ c ∈ (format_stock_code (some s)).data,
        c.isDigit = true ∧ c.isWhitespace = false ∧ c ≠ '.' ∧ c ≠ '+' ∧ c ≠ '-') ∧
      (format_stock_code (some s)).length = max 6 (survivingDigits s) ∧
      format_stock_code (some s) ≠ "" ∧
      format_stock_code none = "" := by
  refine ⟨?_, format_some_length s, format_some_ne_empty s, rfl⟩
  intro c hc
  have hd := format_some_all_digits s c hc
  exact ⟨hd, digit_char_clean c hd⟩

/-- Claim C10, witness at the input `"600000.0"` and its first character. -/
theorem c10_format_stock_code_witness :
    '6'.isDigit = true ∧ '6'.isWhitespace = false ∧ '6' ≠ '.' ∧ '6' ≠ '+' ∧
      '6' ≠ '-' :=
  (c10_format_stock_code_shape "600000.0").1 '6' (by decide)

end TrendAnalysis
